import Mathlib

/-!
# cbgt: the metakv-backed configuration adapter and the node monitor

A shallow embedding of

* `cfg_metakv.go` : `CfgMetaKv.Get`, `CfgMetaKv.Set`, `CfgMetaKv.Del`,
  `CfgMetaKv.delUnlocked`, `CfgMetaKv.metaKVCallback`, `CfgMetaKv.makeKey`,
  `CfgMetaKv.getMetaKey`, `NewCfgMetaKv`;
* `rest/monitor/nodes.go` : the two ticker intervals computed at the head of
  `MonitorNodes.runNode`.

The mutex of `CfgMetaKv` is held for the whole body of every method, so each
method is one atomic step on the pair (local cache, external store).  The
external store (package `metakv`) is a parameter: a record of three
state-passing functions over an arbitrary store state.  Every method returns,
next to its Go results, the list of external-store operations it issued.

`CfgMem` (the in-memory cache the adapter delegates to) has no source file
here; it is modelled from section 4.1 of the specification.
-/

namespace cbgt

/-! ## Go values -/

/-- A Go `string` / `[]byte`: a sequence of bytes. -/
abbrev GoString := List UInt8

/-- `BASE_CFG_PATH = "/cbgt/cfg/"`, as bytes. -/
def BASE_CFG_PATH : GoString := [47, 99, 98, 103, 116, 47, 99, 102, 103, 47]

/-- `CAS_FORCE = math.MaxUint64`. -/
def CAS_FORCE : Nat := 18446744073709551615

/-- Errors raised by the local cache: `NotFound` and `CasMismatch` of the
specification (`CfgCASError` is the name the cache gives the latter). -/
inductive CfgMemError where
  | CfgCASError
  | NotFound
  deriving DecidableEq, Repr

/-- A Go `error` value seen by a caller of `CfgMetaKv`: either an error of the
local cache, or an error value `e` produced by the external store package,
passed along as it is. -/
inductive GoErr (ε : Type) where
  | cfg (e : CfgMemError)
  | metakv (e : ε)
  deriving DecidableEq, Repr

/-! ## The local cache `CfgMem` -/

/-- Modelled from the spec: `ConfigEntry` of section 3 (the entry type of
`CfgMem`, whose source file is missing): a value, a local CAS counter and an
optional external-revision token. -/
structure CfgMemEntry (ρ : Type) where
  CAS : Nat
  Val : GoString
  rev : Option ρ

/-- Modelled from the spec: `LocalCache` of sections 2 and 4.1 (type `CfgMem`,
whose source file is missing): a map from key to entry and the counter from
which fresh CAS values are drawn.  The subscriber registry is left out: no
operation below reads it. -/
structure CfgMem (ρ : Type) where
  CASNext : Nat
  Entries : GoString → Option (CfgMemEntry ρ)

/-- Modelled from the spec: the tagged constraint of sections 6 and 9, which
the code passes as one `uint64`. -/
inductive Constraint where
  | NoConstraint
  | MustMatch (cas : Nat)
  | ForceOverride
  deriving DecidableEq, Repr

/-- Modelled from the spec: the sentinel encoding of section 9 (`0` is "don't
care", `CAS_FORCE` is "force override", anything else must match). -/
def Constraint.ofCas (cas : Nat) : Constraint :=
  if cas = 0 then Constraint.NoConstraint
  else if cas = CAS_FORCE then Constraint.ForceOverride
  else Constraint.MustMatch cas

/-- Modelled from the spec: the constraint check of section 3 that `CfgMem`
applies: `NoConstraint` always passes, `ForceOverride` bypasses the check,
`MustMatch c` passes only on an entry whose current CAS is `c`. -/
def Constraint.admits {ρ : Type} : Constraint → Option (CfgMemEntry ρ) → Bool
  | Constraint.NoConstraint, _ => true
  | Constraint.ForceOverride, _ => true
  | Constraint.MustMatch c, some e => decide (c = e.CAS)
  | Constraint.MustMatch _, none => false

/-- Modelled from the spec: `NewCfgMem` (missing source): an empty cache whose
first CAS is nonzero. -/
def NewCfgMem {ρ : Type} : CfgMem ρ :=
  { CASNext := 1, Entries := fun _ => none }

/-- Modelled from the spec: `CfgMem.Get` (missing source), section 4.1:
`NotFound` on an absent key, `CasMismatch` on a failed `MustMatch`, otherwise
the current value and cas. -/
def CfgMem.Get {ρ : Type} (m : CfgMem ρ) (key : GoString) (cas : Nat) :
    Except CfgMemError (GoString × Nat) :=
  match m.Entries key with
  | none => Except.error CfgMemError.NotFound
  | some e =>
    if (Constraint.ofCas cas).admits (some e) then Except.ok (e.Val, e.CAS)
    else Except.error CfgMemError.CfgCASError

/-- Modelled from the spec: `CfgMem.GetRev` (missing source), `GetRevision` of
section 4.1: the external-revision recorded for the key (none for an absent
key or an entry without one), or `CasMismatch` when the constraint fails. -/
def CfgMem.GetRev {ρ : Type} (m : CfgMem ρ) (key : GoString) (cas : Nat) :
    Except CfgMemError (Option ρ) :=
  if (Constraint.ofCas cas).admits (m.Entries key) then
    Except.ok ((m.Entries key).bind (fun e => e.rev))
  else Except.error CfgMemError.CfgCASError

/-- Modelled from the spec: `CfgMem.SetRev` (missing source), `SetRevision` of
section 4.1: attaches the token to the entry when `cas` is the entry's current
cas, `CasMismatch` when the snapshot is stale. -/
def CfgMem.SetRev {ρ : Type} (m : CfgMem ρ) (key : GoString) (cas : Nat)
    (rev : Option ρ) : Except CfgMemError (CfgMem ρ) :=
  match m.Entries key with
  | some e =>
    if e.CAS = cas then
      Except.ok { m with Entries := fun k =>
        if k = key then some { e with rev := rev } else m.Entries k }
    else Except.error CfgMemError.CfgCASError
  | none => Except.error CfgMemError.CfgCASError

/-- Modelled from the spec: `CfgMem.Set` (missing source), section 4.1: after
the constraint check, stores the value under a fresh cas drawn from the
counter; the new entry carries no external-revision (a revision is valid only
with the cas snapshot it was captured under).  The counter is a `uint64`. -/
def CfgMem.Set {ρ : Type} (m : CfgMem ρ) (key : GoString) (val : GoString)
    (cas : Nat) : Except CfgMemError (Nat × CfgMem ρ) :=
  if (Constraint.ofCas cas).admits (m.Entries key) then
    Except.ok (m.CASNext,
      { CASNext := (m.CASNext + 1) % 2 ^ 64,
        Entries := fun k =>
          if k = key then some { CAS := m.CASNext, Val := val, rev := none }
          else m.Entries k })
  else Except.error CfgMemError.CfgCASError

/-- Modelled from the spec: `CfgMem.Del` (missing source), section 4.1: after
the same constraint check, removes value, cas and external-revision. -/
def CfgMem.Del {ρ : Type} (m : CfgMem ρ) (key : GoString) (cas : Nat) :
    Except CfgMemError (CfgMem ρ) :=
  if (Constraint.ofCas cas).admits (m.Entries key) then
    Except.ok { m with Entries := fun k => if k = key then none else m.Entries k }
  else Except.error CfgMemError.CfgCASError

/-! ## The external store -/

/-- The three `metakv` calls the adapter makes, over a store state `σ`, with
revisions `ρ` and store errors `ε`.  Each returns the Go `error` (`none` is
`nil`) and the store state after the call.  A revision argument is a Go
`interface{}`, so it may be `nil` (`none`). -/
structure MetaKv (σ ρ ε : Type) where
  Add : σ → GoString → GoString → Option ε × σ
  Set : σ → GoString → GoString → Option ρ → Option ε × σ
  Delete : σ → GoString → Option ρ → Option ε × σ

/-- An external-store operation as issued by the adapter. -/
inductive ExtOp (ρ : Type) where
  | Add (path : GoString) (value : GoString)
  | Set (path : GoString) (value : GoString) (rev : Option ρ)
  | Delete (path : GoString) (rev : Option ρ)
  deriving DecidableEq, Repr

/-- Runs one external-store operation. -/
def MetaKv.run {σ ρ ε : Type} (kv : MetaKv σ ρ ε) (st : σ) : ExtOp ρ → Option ε × σ
  | ExtOp.Add p v => kv.Add st p v
  | ExtOp.Set p v r => kv.Set st p v r
  | ExtOp.Delete p r => kv.Delete st p r

/-! ## `CfgMetaKv` -/

/-- The fields of `CfgMetaKv` that its methods read: the path and the cache.
(`m` is the mutex, `cancelCh` stops the watch loop, `rev` is never used.) -/
structure CfgMetaKv (ρ : Type) where
  path : GoString
  cfgMem : CfgMem ρ

/-- What a method call leaves behind: its Go results, the adapter, the store
and the external operations issued, in order. -/
structure Outcome (σ ρ α : Type) where
  ret : α
  cfg : CfgMetaKv ρ
  store : σ
  ops : List (ExtOp ρ)

/-- `NewCfgMetaKv`, without the watch goroutine. -/
def NewCfgMetaKv {ρ : Type} : CfgMetaKv ρ :=
  { path := BASE_CFG_PATH, cfgMem := NewCfgMem }

/-- `CfgMetaKv.makeKey`: `c.path + k`. -/
def CfgMetaKv.makeKey {ρ : Type} (c : CfgMetaKv ρ) (k : GoString) : GoString :=
  c.path ++ k

/-- `CfgMetaKv.getMetaKey`: `k[len(c.path):]`, which panics (`none`) when `k`
is shorter than the path. -/
def CfgMetaKv.getMetaKey {ρ : Type} (c : CfgMetaKv ρ) (k : GoString) : Option GoString :=
  if c.path.length ≤ k.length then some (k.drop c.path.length) else none

/-- `CfgMetaKv.Get`. -/
def CfgMetaKv.Get {ρ : Type} (c : CfgMetaKv ρ) (key : GoString) (cas : Nat) :
    Except CfgMemError (GoString × Nat) :=
  c.cfgMem.Get key cas

/-- The `if rev == nil` of `CfgMetaKv.Set`: the external call made once the
local check has returned `rev`: `metakv.Add` when it is nil, `metakv.Set`
gated on it otherwise. -/
def CfgMetaKv.setOp {ρ : Type} (c : CfgMetaKv ρ) (key val : GoString) :
    Option ρ → ExtOp ρ
  | none => ExtOp.Add (c.makeKey key) val
  | some r => ExtOp.Set (c.makeKey key) val (some r)

/-- `CfgMetaKv.Set`.  The Go results are `(cas, err)`. -/
def CfgMetaKv.Set {σ ρ ε : Type} (kv : MetaKv σ ρ ε) (c : CfgMetaKv ρ) (st : σ)
    (key : GoString) (val : GoString) (cas : Nat) :
    Outcome σ ρ (Nat × Option (GoErr ε)) :=
  match c.cfgMem.GetRev key cas with
  | Except.error err => ⟨(0, some (GoErr.cfg err)), c, st, []⟩
  | Except.ok rev =>
    let op : ExtOp ρ := c.setOp key val rev
    match kv.run st op with
    | (none, st') =>
      match c.cfgMem.Set key val CAS_FORCE with
      | Except.error err => ⟨(0, some (GoErr.cfg err)), c, st', [op]⟩
      | Except.ok (cas', m') => ⟨(cas', none), { c with cfgMem := m' }, st', [op]⟩
    | (some e, st') => ⟨(cas, some (GoErr.metakv e)), c, st', [op]⟩

/-- `CfgMetaKv.delUnlocked`.  The Go result is `err`. -/
def CfgMetaKv.delUnlocked {σ ρ ε : Type} (kv : MetaKv σ ρ ε) (c : CfgMetaKv ρ) (st : σ)
    (key : GoString) (cas : Nat) : Outcome σ ρ (Option (GoErr ε)) :=
  match c.cfgMem.GetRev key cas with
  | Except.error err => ⟨some (GoErr.cfg err), c, st, []⟩
  | Except.ok rev =>
    match kv.run st (ExtOp.Delete (c.makeKey key) rev) with
    | (none, st') =>
      match c.cfgMem.Del key 0 with
      | Except.error err => ⟨some (GoErr.cfg err), c, st', [ExtOp.Delete (c.makeKey key) rev]⟩
      | Except.ok m' => ⟨none, { c with cfgMem := m' }, st', [ExtOp.Delete (c.makeKey key) rev]⟩
    | (some e, st') => ⟨some (GoErr.metakv e), c, st', [ExtOp.Delete (c.makeKey key) rev]⟩

/-- `CfgMetaKv.Del`. -/
def CfgMetaKv.Del {σ ρ ε : Type} (kv : MetaKv σ ρ ε) (c : CfgMetaKv ρ) (st : σ)
    (key : GoString) (cas : Nat) : Outcome σ ρ (Option (GoErr ε)) :=
  c.delUnlocked kv st key cas

/-- `CfgMetaKv.metaKVCallback`.  `value = none` is a nil slice; the whole
result is `none` when `getMetaKey` panics.  The error of `SetRev` is dropped,
as in the code. -/
def CfgMetaKv.metaKVCallback {σ ρ ε : Type} (kv : MetaKv σ ρ ε) (c : CfgMetaKv ρ) (st : σ)
    (path : GoString) (value : Option GoString) (rev : Option ρ) :
    Option (Outcome σ ρ (Option (GoErr ε))) :=
  match c.getMetaKey path with
  | none => none
  | some key =>
    match value with
    | none => some (c.delUnlocked kv st key 0)
    | some v =>
      match c.cfgMem.Set key v CAS_FORCE with
      | Except.ok (cas, m') =>
        match m'.SetRev key cas rev with
        | Except.ok m'' => some ⟨none, { c with cfgMem := m'' }, st, []⟩
        | Except.error _ => some ⟨none, { c with cfgMem := m' }, st, []⟩
      | Except.error err => some ⟨some (GoErr.cfg err), c, st, []⟩

/-! ## A reference external store -/

/-- Errors of the reference store. -/
inductive StoreError where
  | Exists
  | RevMismatch
  deriving DecidableEq, Repr

/-- Modelled from the spec: a store that honours the collaborator contract of
section 6 (the real store is the external package `metakv`): every path holds
a value and the revision of its last write. -/
structure Store where
  items : GoString → Option (GoString × Nat)
  nextRev : Nat

/-- The current revision of a path in the reference store. -/
def Store.revOf (st : Store) (p : GoString) : Option Nat :=
  (st.items p).map (fun x => x.2)

/-- Writes `v` at `p` under a new revision. -/
def Store.put (st : Store) (p : GoString) (v : GoString) : Store :=
  { items := fun q => if q = p then some (v, st.nextRev) else st.items q,
    nextRev := st.nextRev + 1 }

/-- Removes `p`. -/
def Store.erase (st : Store) (p : GoString) : Store :=
  { st with items := fun q => if q = p then none else st.items q }

/-- Modelled from the spec: the contract of section 6.  `Create` fails iff the
path exists; `ConditionalWrite` and `ConditionalDelete` fail iff the revision
given differs from the current one (a nil revision on delete is
unconditional). -/
def honestKv : MetaKv Store Nat StoreError where
  Add st p v :=
    match st.items p with
    | some _ => (some StoreError.Exists, st)
    | none => (none, st.put p v)
  Set st p v r :=
    if st.revOf p = r ∧ r ≠ none then (none, st.put p v)
    else (some StoreError.RevMismatch, st)
  Delete st p r :=
    match r with
    | none => (none, st.erase p)
    | some x =>
      if st.revOf p = some x then (none, st.erase p)
      else (some StoreError.RevMismatch, st)

/-- The empty reference store. -/
def Store.empty : Store := { items := fun _ => none, nextRev := 1 }

/-! ## `MonitorNodes.runNode` -/

/-- `time.Second`, in nanoseconds (`time.Duration` is an `int64` count of
nanoseconds). -/
def Second : Int := 1000000000

/-- `MonitorNodesOptions`, without `HttpGet`. -/
structure MonitorNodesOptions where
  StatsSampleInterval : Int
  StatsSampleDisable : Bool
  DiagSampleInterval : Int
  DiagSampleDisable : Bool
  deriving DecidableEq, Repr

/-- The head of `MonitorNodes.runNode`: the durations handed to
`time.NewTicker` for the stats ticker and for the diag ticker.  The two
`DEFAULT_..._SECS` constants are declared outside the files at hand and are
parameters. -/
def MonitorNodes.runNode (DEFAULT_STATS_SAMPLE_INTERVAL_SECS
    DEFAULT_DIAG_SAMPLE_INTERVAL_SECS : Int) (options : MonitorNodesOptions) : Int × Int :=
  let statsSampleInterval :=
    if options.StatsSampleInterval ≤ 0 then DEFAULT_STATS_SAMPLE_INTERVAL_SECS * Second
    else options.StatsSampleInterval
  let diagSampleInterval :=
    if options.StatsSampleInterval ≤ 0 then DEFAULT_DIAG_SAMPLE_INTERVAL_SECS * Second
    else options.StatsSampleInterval
  (statsSampleInterval, diagSampleInterval)

/-! ## Sample data -/

/-- The key `"k"`. -/
def keyK : GoString := [107]

/-- The value `"a"`. -/
def valA : GoString := [97]

/-- The value `"b"`. -/
def valB : GoString := [98]

/-- The value `"c"`. -/
def valC : GoString := [99]

/-- An adapter whose cache holds `"k" = "a"` under cas 1 with recorded
external revision 1. -/
def cachedK : CfgMetaKv Nat :=
  { path := BASE_CFG_PATH,
    cfgMem :=
      { CASNext := 2,
        Entries := fun k =>
          if k = keyK then some { CAS := 1, Val := valA, rev := some 1 } else none } }

/-- A reference store holding `"/cbgt/cfg/k" = "a"` at revision 1. -/
def storeK1 : Store :=
  { items := fun q => if q = BASE_CFG_PATH ++ keyK then some (valA, 1) else none,
    nextRev := 2 }

/-- A reference store where another writer has moved `"/cbgt/cfg/k"` on to
revision 5. -/
def storeK5 : Store :=
  { items := fun q => if q = BASE_CFG_PATH ++ keyK then some (valB, 5) else none,
    nextRev := 6 }

/-- Options with a stats interval of 5 s and a diag interval of 10 s. -/
def sampleOptions : MonitorNodesOptions :=
  { StatsSampleInterval := 5 * Second, StatsSampleDisable := false,
    DiagSampleInterval := 10 * Second, DiagSampleDisable := false }

/-! ## The contract of the external store -/

/-- The collaborator contract of section 6 of the specification, for a store
whose current revision of path `p` in state `st` is `cur st p` (`none` when the
path does not exist): `Create` fails iff the path exists and the path exists
once it has returned; `ConditionalWrite` fails iff the revision given differs
from the current one; an accepted delete leaves the path absent. -/
structure MetaKv.Honours {σ ρ ε : Type} (kv : MetaKv σ ρ ε)
    (cur : σ → GoString → Option ρ) : Prop where
  Add_fails_iff : ∀ st p v, (kv.Add st p v).1 ≠ none ↔ cur st p ≠ none
  Add_after : ∀ st p v, cur (kv.Add st p v).2 p ≠ none
  Set_fails_iff : ∀ st p v r, (kv.Set st p v (some r)).1 ≠ none ↔ cur st p ≠ some r
  Delete_after : ∀ st p r, (kv.Delete st p r).1 = none → cur (kv.Delete st p r).2 p = none

/-! ## Facts about the cache model -/

theorem ofCas_zero : Constraint.ofCas 0 = Constraint.NoConstraint := by
  simp [Constraint.ofCas]

theorem ofCas_force : Constraint.ofCas CAS_FORCE = Constraint.ForceOverride := by
  simp [Constraint.ofCas, CAS_FORCE]

theorem admits_zero {ρ : Type} (x : Option (CfgMemEntry ρ)) :
    (Constraint.ofCas 0).admits x = true := by
  rw [ofCas_zero]; rfl

theorem admits_force {ρ : Type} (x : Option (CfgMemEntry ρ)) :
    (Constraint.ofCas CAS_FORCE).admits x = true := by
  rw [ofCas_force]; rfl

theorem admits_own {ρ : Type} (e : CfgMemEntry ρ) :
    (Constraint.ofCas e.CAS).admits (some e) = true := by
  unfold Constraint.ofCas
  split
  · rfl
  · split
    · rfl
    · simp [Constraint.admits]

theorem CfgMem.GetRev_zero {ρ : Type} (m : CfgMem ρ) (key : GoString) :
    m.GetRev key 0 = Except.ok ((m.Entries key).bind (fun e => e.rev)) := by
  simp [CfgMem.GetRev, admits_zero]

theorem CfgMem.GetRev_force {ρ : Type} (m : CfgMem ρ) (key : GoString) :
    m.GetRev key CAS_FORCE = Except.ok ((m.Entries key).bind (fun e => e.rev)) := by
  simp [CfgMem.GetRev, admits_force]

theorem CfgMem.GetRev_own {ρ : Type} (m : CfgMem ρ) (key : GoString) (e : CfgMemEntry ρ)
    (h : m.Entries key = some e) : m.GetRev key e.CAS = Except.ok e.rev := by
  simp [CfgMem.GetRev, h, admits_own]

theorem CfgMem.GetRev_error {ρ : Type} (m : CfgMem ρ) (key : GoString) (cas : Nat)
    (err : CfgMemError) (h : m.GetRev key cas = Except.error err) :
    err = CfgMemError.CfgCASError := by
  unfold CfgMem.GetRev at h
  split at h
  · cases h
  · cases h; rfl

theorem CfgMem.Set_force {ρ : Type} (m : CfgMem ρ) (key val : GoString) :
    m.Set key val CAS_FORCE = Except.ok (m.CASNext,
      { CASNext := (m.CASNext + 1) % 2 ^ 64,
        Entries := fun k =>
          if k = key then some { CAS := m.CASNext, Val := val, rev := none }
          else m.Entries k }) := by
  simp [CfgMem.Set, admits_force]

theorem CfgMem.Del_zero {ρ : Type} (m : CfgMem ρ) (key : GoString) :
    m.Del key 0 = Except.ok
      { m with Entries := fun k => if k = key then none else m.Entries k } := by
  simp [CfgMem.Del, admits_zero]

/-! ## Facts about `CfgMetaKv.Set` and `CfgMetaKv.delUnlocked` -/

theorem CfgMetaKv.Set_of_check_error {σ ρ ε : Type} (kv : MetaKv σ ρ ε) (c : CfgMetaKv ρ)
    (st : σ) (key val : GoString) (cas : Nat) (err : CfgMemError)
    (h : c.cfgMem.GetRev key cas = Except.error err) :
    CfgMetaKv.Set kv c st key val cas = ⟨(0, some (GoErr.cfg err)), c, st, []⟩ := by
  simp [CfgMetaKv.Set, h]

theorem CfgMetaKv.Set_of_store_error {σ ρ ε : Type} (kv : MetaKv σ ρ ε) (c : CfgMetaKv ρ)
    (st : σ) (key val : GoString) (cas : Nat) (rev : Option ρ) (e : ε)
    (h : c.cfgMem.GetRev key cas = Except.ok rev)
    (hs : (kv.run st (c.setOp key val rev)).1 = some e) :
    CfgMetaKv.Set kv c st key val cas =
      ⟨(cas, some (GoErr.metakv e)), c, (kv.run st (c.setOp key val rev)).2,
        [c.setOp key val rev]⟩ := by
  unfold CfgMetaKv.Set
  rw [h]
  cases rev with
  | none =>
    simp only [CfgMetaKv.setOp] at hs ⊢
    rcases hr : kv.run st (ExtOp.Add (c.makeKey key) val) with ⟨a, b⟩
    rw [hr] at hs
    cases hs
    rfl
  | some r =>
    simp only [CfgMetaKv.setOp] at hs ⊢
    rcases hr : kv.run st (ExtOp.Set (c.makeKey key) val (some r)) with ⟨a, b⟩
    rw [hr] at hs
    cases hs
    rfl

theorem CfgMetaKv.Set_of_store_ok {σ ρ ε : Type} (kv : MetaKv σ ρ ε) (c : CfgMetaKv ρ)
    (st : σ) (key val : GoString) (cas : Nat) (rev : Option ρ)
    (h : c.cfgMem.GetRev key cas = Except.ok rev)
    (hs : (kv.run st (c.setOp key val rev)).1 = none) :
    CfgMetaKv.Set kv c st key val cas =
      ⟨(c.cfgMem.CASNext, none),
        { c with cfgMem :=
          { CASNext := (c.cfgMem.CASNext + 1) % 2 ^ 64,
            Entries := fun k =>
              if k = key then some { CAS := c.cfgMem.CASNext, Val := val, rev := none }
              else c.cfgMem.Entries k } },
        (kv.run st (c.setOp key val rev)).2, [c.setOp key val rev]⟩ := by
  unfold CfgMetaKv.Set
  rw [h]
  cases rev with
  | none =>
    simp only [CfgMetaKv.setOp] at hs ⊢
    rcases hr : kv.run st (ExtOp.Add (c.makeKey key) val) with ⟨a, b⟩
    rw [hr] at hs
    cases hs
    simp [CfgMem.Set_force]
  | some r =>
    simp only [CfgMetaKv.setOp] at hs ⊢
    rcases hr : kv.run st (ExtOp.Set (c.makeKey key) val (some r)) with ⟨a, b⟩
    rw [hr] at hs
    cases hs
    simp [CfgMem.Set_force]

theorem CfgMetaKv.delUnlocked_of_check_error {σ ρ ε : Type} (kv : MetaKv σ ρ ε)
    (c : CfgMetaKv ρ) (st : σ) (key : GoString) (cas : Nat) (err : CfgMemError)
    (h : c.cfgMem.GetRev key cas = Except.error err) :
    c.delUnlocked kv st key cas = ⟨some (GoErr.cfg err), c, st, []⟩ := by
  simp [CfgMetaKv.delUnlocked, h]

theorem CfgMetaKv.delUnlocked_of_store_error {σ ρ ε : Type} (kv : MetaKv σ ρ ε)
    (c : CfgMetaKv ρ) (st : σ) (key : GoString) (cas : Nat) (rev : Option ρ) (e : ε)
    (h : c.cfgMem.GetRev key cas = Except.ok rev)
    (hs : (kv.Delete st (c.makeKey key) rev).1 = some e) :
    c.delUnlocked kv st key cas =
      ⟨some (GoErr.metakv e), c, (kv.Delete st (c.makeKey key) rev).2,
        [ExtOp.Delete (c.makeKey key) rev]⟩ := by
  unfold CfgMetaKv.delUnlocked
  rw [h]
  simp only [MetaKv.run]
  rcases hr : kv.Delete st (c.makeKey key) rev with ⟨a, b⟩
  rw [hr] at hs
  cases hs
  rfl

theorem CfgMetaKv.delUnlocked_of_store_ok {σ ρ ε : Type} (kv : MetaKv σ ρ ε)
    (c : CfgMetaKv ρ) (st : σ) (key : GoString) (cas : Nat) (rev : Option ρ)
    (h : c.cfgMem.GetRev key cas = Except.ok rev)
    (hs : (kv.Delete st (c.makeKey key) rev).1 = none) :
    c.delUnlocked kv st key cas =
      ⟨none,
        { c with cfgMem :=
          { c.cfgMem with Entries := fun k => if k = key then none else c.cfgMem.Entries k } },
        (kv.Delete st (c.makeKey key) rev).2, [ExtOp.Delete (c.makeKey key) rev]⟩ := by
  unfold CfgMetaKv.delUnlocked
  rw [h]
  simp only [MetaKv.run]
  rcases hr : kv.Delete st (c.makeKey key) rev with ⟨a, b⟩
  rw [hr] at hs
  cases hs
  simp [CfgMem.Del_zero]

theorem honestKv_honours : honestKv.Honours Store.revOf where
  Add_fails_iff st p v := by
    cases h : st.items p <;> simp [honestKv, Store.revOf, h]
  Add_after st p v := by
    cases h : st.items p <;> simp [honestKv, Store.revOf, Store.put, h]
  Set_fails_iff st p v r := by
    by_cases h : st.revOf p = some r <;> simp [honestKv, h]
  Delete_after st p r := by
    cases r with
    | none => simp [honestKv, Store.revOf, Store.erase]
    | some x =>
      by_cases h : st.revOf p = some x
      · intro _
        simp only [honestKv, h, if_true]
        simp [Store.revOf, Store.erase]
      · intro hh
        simp [honestKv, h] at hh

theorem CfgMetaKv.Set_ops_of_check_ok {σ ρ ε : Type} (kv : MetaKv σ ρ ε)
    (c : CfgMetaKv ρ) (st : σ) (key val : GoString) (cas : Nat) (rev : Option ρ)
    (h : c.cfgMem.GetRev key cas = Except.ok rev) :
    (CfgMetaKv.Set kv c st key val cas).ops = [c.setOp key val rev] := by
  cases hs : (kv.run st (c.setOp key val rev)).1 with
  | none => rw [CfgMetaKv.Set_of_store_ok kv c st key val cas rev h hs]
  | some e => rw [CfgMetaKv.Set_of_store_error kv c st key val cas rev e h hs]

theorem CfgMetaKv.delUnlocked_ops {σ ρ ε : Type} (kv : MetaKv σ ρ ε)
    (c : CfgMetaKv ρ) (st : σ) (key : GoString) (cas : Nat) (rev : Option ρ)
    (h : c.cfgMem.GetRev key cas = Except.ok rev) :
    (c.delUnlocked kv st key cas).ops = [ExtOp.Delete (c.makeKey key) rev] := by
  cases hs : (kv.Delete st (c.makeKey key) rev).1 with
  | none => rw [CfgMetaKv.delUnlocked_of_store_ok kv c st key cas rev h hs]
  | some e => rw [CfgMetaKv.delUnlocked_of_store_error kv c st key cas rev e h hs]

/-! ## The claims -/

/-- C3: `CfgMetaKv.Set` issues at most one external-store operation: none when
the local check `cfgMem.GetRev` fails, and then it returns cas 0 with the
CAS-mismatch error and leaves the store alone; exactly one `metakv.Add` on
`path + key` when the check passes with no recorded revision; exactly one
`metakv.Set` on `path + key` gated on the recorded revision otherwise.  The
store after the call is the store after that one operation. -/
theorem CfgMetaKv.Set_issues_at_most_one_op {σ ρ ε : Type} (kv : MetaKv σ ρ ε)
    (c : CfgMetaKv ρ) (st : σ) (key val : GoString) (cas : Nat) :
    (CfgMetaKv.Set kv c st key val cas).ops.length ≤ 1 ∧
    match c.cfgMem.GetRev key cas with
    | Except.error _ =>
      (CfgMetaKv.Set kv c st key val cas).ops = [] ∧
      (CfgMetaKv.Set kv c st key val cas).store = st ∧
      (CfgMetaKv.Set kv c st key val cas).ret =
        (0, some (GoErr.cfg CfgMemError.CfgCASError))
    | Except.ok none =>
      (CfgMetaKv.Set kv c st key val cas).ops = [ExtOp.Add (c.path ++ key) val] ∧
      (CfgMetaKv.Set kv c st key val cas).store = (kv.Add st (c.path ++ key) val).2
    | Except.ok (some r) =>
      (CfgMetaKv.Set kv c st key val cas).ops = [ExtOp.Set (c.path ++ key) val (some r)] ∧
      (CfgMetaKv.Set kv c st key val cas).store =
        (kv.Set st (c.path ++ key) val (some r)).2 := by
  cases h : c.cfgMem.GetRev key cas with
  | error err =>
    have herr := CfgMem.GetRev_error _ _ _ _ h
    subst herr
    simp [CfgMetaKv.Set_of_check_error kv c st key val cas _ h]
  | ok rev =>
    cases hs : (kv.run st (c.setOp key val rev)).1 with
    | none =>
      rw [CfgMetaKv.Set_of_store_ok kv c st key val cas rev h hs]
      cases rev <;> simp [CfgMetaKv.setOp, CfgMetaKv.makeKey, MetaKv.run]
    | some e =>
      rw [CfgMetaKv.Set_of_store_error kv c st key val cas rev e h hs]
      cases rev <;> simp [CfgMetaKv.setOp, CfgMetaKv.makeKey, MetaKv.run]

/-- C2: whenever `CfgMetaKv.Set` returns a non-nil error, and whenever
`CfgMetaKv.Del` returns a non-nil error, whatever the external store does, the
adapter (hence every key's value, cas and recorded external revision in the
local cache) is exactly what it was before the call. -/
theorem CfgMetaKv.Set_Del_error_leaves_cache {σ ρ ε : Type} (kv : MetaKv σ ρ ε)
    (c : CfgMetaKv ρ) (st : σ) (key val : GoString) (cas : Nat) :
    ((CfgMetaKv.Set kv c st key val cas).ret.2 ≠ none →
      (CfgMetaKv.Set kv c st key val cas).cfg = c) ∧
    ((CfgMetaKv.Del kv c st key cas).ret ≠ none →
      (CfgMetaKv.Del kv c st key cas).cfg = c) := by
  constructor
  · intro hne
    cases h : c.cfgMem.GetRev key cas with
    | error err => rw [CfgMetaKv.Set_of_check_error kv c st key val cas _ h]
    | ok rev =>
      cases hs : (kv.run st (c.setOp key val rev)).1 with
      | none =>
        rw [CfgMetaKv.Set_of_store_ok kv c st key val cas rev h hs] at hne
        exact absurd rfl hne
      | some e => rw [CfgMetaKv.Set_of_store_error kv c st key val cas rev e h hs]
  · intro hne
    unfold CfgMetaKv.Del at hne ⊢
    cases h : c.cfgMem.GetRev key cas with
    | error err => rw [CfgMetaKv.delUnlocked_of_check_error kv c st key cas _ h]
    | ok rev =>
      cases hs : (kv.Delete st (c.makeKey key) rev).1 with
      | none =>
        rw [CfgMetaKv.delUnlocked_of_store_ok kv c st key cas rev h hs] at hne
        exact absurd rfl hne
      | some e => rw [CfgMetaKv.delUnlocked_of_store_error kv c st key cas rev e h hs]

/-- Witness of C2: on the cache holding `"k"` at revision 1 and a store that
has moved on to revision 5, `Set` and `Del` under the right local cas both
fail, and the adapter is unchanged. -/
theorem CfgMetaKv.Set_Del_error_leaves_cache_witness :
    (CfgMetaKv.Set honestKv cachedK storeK5 keyK valC 1).ret.2 ≠ none ∧
    (CfgMetaKv.Set honestKv cachedK storeK5 keyK valC 1).cfg = cachedK ∧
    (CfgMetaKv.Del honestKv cachedK storeK5 keyK 1).ret ≠ none ∧
    (CfgMetaKv.Del honestKv cachedK storeK5 keyK 1).cfg = cachedK :=
  ⟨by decide,
    (CfgMetaKv.Set_Del_error_leaves_cache honestKv cachedK storeK5 keyK valC 1).1 (by decide),
    by decide,
    (CfgMetaKv.Set_Del_error_leaves_cache honestKv cachedK storeK5 keyK valC 1).2 (by decide)⟩

/-- C4, as stated, fails: on a fresh adapter and an empty store,
`Set("k", "a", 0)` succeeds and the store gives the write revision 1, yet no
external revision is recorded for `"k"` in the local cache. -/
theorem CfgMetaKv.Set_ok_records_no_rev_counterexample :
    (CfgMetaKv.Set honestKv NewCfgMetaKv Store.empty keyK valA 0).ret = (1, none) ∧
    (CfgMetaKv.Set honestKv NewCfgMetaKv Store.empty keyK valA 0).store.revOf
      (BASE_CFG_PATH ++ keyK) = some 1 ∧
    (CfgMetaKv.Set honestKv NewCfgMetaKv Store.empty keyK valA 0).cfg.cfgMem.GetRev keyK 1
      = Except.ok none := by
  refine ⟨by decide, by decide, ?_⟩
  rfl

/-- C4, amended: when `CfgMetaKv.Set(key, val, cas)` succeeds, the local cache
holds `val` for `key` under the returned cas, and no external revision is
recorded for `key` (the code has no revision to record: `metakv.Add` and
`metakv.Set` return only an error). -/
theorem CfgMetaKv.Set_ok_caches_value_without_rev {σ ρ ε : Type} (kv : MetaKv σ ρ ε)
    (c : CfgMetaKv ρ) (st : σ) (key val : GoString) (cas : Nat)
    (hok : (CfgMetaKv.Set kv c st key val cas).ret.2 = none) :
    (CfgMetaKv.Set kv c st key val cas).cfg.Get key 0 =
      Except.ok (val, (CfgMetaKv.Set kv c st key val cas).ret.1) ∧
    (CfgMetaKv.Set kv c st key val cas).cfg.cfgMem.GetRev key
      (CfgMetaKv.Set kv c st key val cas).ret.1 = Except.ok none ∧
    (CfgMetaKv.Set kv c st key val cas).cfg.cfgMem.GetRev key 0 = Except.ok none := by
  cases h : c.cfgMem.GetRev key cas with
  | error err =>
    rw [CfgMetaKv.Set_of_check_error kv c st key val cas _ h] at hok
    cases hok
  | ok rev =>
    cases hs : (kv.run st (c.setOp key val rev)).1 with
    | some e =>
      rw [CfgMetaKv.Set_of_store_error kv c st key val cas rev e h hs] at hok
      cases hok
    | none =>
      rw [CfgMetaKv.Set_of_store_ok kv c st key val cas rev h hs]
      refine ⟨?_, ?_, ?_⟩
      · simp [CfgMetaKv.Get, CfgMem.Get, admits_zero]
      · have := CfgMem.GetRev_own
          ({ CASNext := (c.cfgMem.CASNext + 1) % 2 ^ 64,
             Entries := fun k =>
               if k = key then some { CAS := c.cfgMem.CASNext, Val := val, rev := none }
               else c.cfgMem.Entries k } : CfgMem ρ) key
          { CAS := c.cfgMem.CASNext, Val := val, rev := none } (by simp)
        simpa using this
      · simp [CfgMem.GetRev_zero]

/-- Witness of amended C4: the first `Set` on a fresh adapter. -/
theorem CfgMetaKv.Set_ok_caches_value_without_rev_witness :
    (CfgMetaKv.Set honestKv NewCfgMetaKv Store.empty keyK valA 0).ret.2 = none ∧
    (CfgMetaKv.Set honestKv NewCfgMetaKv Store.empty keyK valA 0).cfg.Get keyK 0 =
      Except.ok (valA, (CfgMetaKv.Set honestKv NewCfgMetaKv Store.empty keyK valA 0).ret.1) :=
  ⟨by decide,
    (CfgMetaKv.Set_ok_caches_value_without_rev honestKv NewCfgMetaKv Store.empty keyK valA 0
      (by decide)).1⟩

/-- C1, as stated, fails: with `"k"` absent from a fresh cache and from an
empty contract-honouring store, `Set("k", "a", 0)` succeeds with cas 1, but
`Set("k", "b", 1)` does not succeed: it issues a second create and returns the
store's already-exists error; and `Set("k", "c", 1)` then fails with that
store error too, not with the CAS-mismatch error. -/
theorem CfgMetaKv.Set_twice_counterexample :
    (NewCfgMetaKv : CfgMetaKv Nat).cfgMem.Entries keyK = none ∧
    Store.empty.items (BASE_CFG_PATH ++ keyK) = none ∧
    (CfgMetaKv.Set honestKv NewCfgMetaKv Store.empty keyK valA 0).ret = (1, none) ∧
    (CfgMetaKv.Set honestKv
      (CfgMetaKv.Set honestKv NewCfgMetaKv Store.empty keyK valA 0).cfg
      (CfgMetaKv.Set honestKv NewCfgMetaKv Store.empty keyK valA 0).store
      keyK valB 1).ret = (1, some (GoErr.metakv StoreError.Exists)) ∧
    (CfgMetaKv.Set honestKv
      (CfgMetaKv.Set honestKv
        (CfgMetaKv.Set honestKv NewCfgMetaKv Store.empty keyK valA 0).cfg
        (CfgMetaKv.Set honestKv NewCfgMetaKv Store.empty keyK valA 0).store
        keyK valB 1).cfg
      (CfgMetaKv.Set honestKv
        (CfgMetaKv.Set honestKv NewCfgMetaKv Store.empty keyK valA 0).cfg
        (CfgMetaKv.Set honestKv NewCfgMetaKv Store.empty keyK valA 0).store
        keyK valB 1).store
      keyK valC 1).ret = (1, some (GoErr.metakv StoreError.Exists)) := by
  refine ⟨rfl, rfl, by decide, by decide, by decide⟩

/-- C1, amended: for a key `K` absent from the local cache and from a
contract-honouring store, with a nonzero cas counter: `Set(K, v1, 0)` succeeds
with `cas1 > 0`; then `Set(K, v2, cas1)` passes the local check but, no
external revision having been recorded, issues a second create, which the
store rejects because the path exists: it returns the store's error with
`cas1` and leaves the adapter unchanged; and `Set(K, v3, cas1)` then fails in
the same way, with the store's error. -/
theorem CfgMetaKv.Set_then_Set_under_first_cas {σ ρ ε : Type} (kv : MetaKv σ ρ ε)
    (cur : σ → GoString → Option ρ) (hon : kv.Honours cur)
    (c : CfgMetaKv ρ) (st : σ) (K v1 v2 v3 : GoString)
    (hK : c.cfgMem.Entries K = none) (hS : cur st (c.makeKey K) = none)
    (hpos : 0 < c.cfgMem.CASNext) :
    let o1 := CfgMetaKv.Set kv c st K v1 0
    let o2 := CfgMetaKv.Set kv o1.cfg o1.store K v2 o1.ret.1
    let o3 := CfgMetaKv.Set kv o2.cfg o2.store K v3 o1.ret.1
    o1.ret.2 = none ∧ 0 < o1.ret.1 ∧ o1.ops = [ExtOp.Add (c.path ++ K) v1] ∧
    (∃ e, o2.ret = (o1.ret.1, some (GoErr.metakv e))) ∧
    o2.ops = [ExtOp.Add (c.path ++ K) v2] ∧ o2.cfg = o1.cfg ∧
    (∃ e, o3.ret = (o1.ret.1, some (GoErr.metakv e))) ∧
    o3.ops = [ExtOp.Add (c.path ++ K) v3] ∧ o3.cfg = o1.cfg := by
  intro o1 o2 o3
  -- the first call: the check passes with no revision, the create is accepted
  have hg1 : c.cfgMem.GetRev K 0 = Except.ok none := by
    rw [CfgMem.GetRev_zero, hK]; rfl
  have ha1 : (kv.run st (c.setOp K v1 none)).1 = none := by
    have := (hon.Add_fails_iff st (c.makeKey K) v1).not
    simp only [ne_eq, not_not] at this
    exact this.mpr hS
  have e1 : o1 = _ := CfgMetaKv.Set_of_store_ok kv c st K v1 0 none hg1 ha1
  have hret1 : o1.ret = (c.cfgMem.CASNext, none) := by rw [e1]
  have hst1 : o1.store = (kv.Add st (c.makeKey K) v1).2 := by rw [e1]; rfl
  have hpath1 : o1.cfg.path = c.path := by rw [e1]
  have hent1 : o1.cfg.cfgMem.Entries K =
      some { CAS := c.cfgMem.CASNext, Val := v1, rev := none } := by
    rw [e1]; simp
  have hcas1 : o1.ret.1 = c.cfgMem.CASNext := by rw [hret1]
  have hmk : ∀ k, o1.cfg.makeKey k = c.makeKey k := by
    intro k; simp [CfgMetaKv.makeKey, hpath1]
  -- the second call: the check passes under cas1, still with no revision
  have hg2 : o1.cfg.cfgMem.GetRev K o1.ret.1 = Except.ok none := by
    rw [hcas1]
    exact CfgMem.GetRev_own _ K { CAS := c.cfgMem.CASNext, Val := v1, rev := none } hent1
  have hcur1 : cur o1.store (c.makeKey K) ≠ none := by
    rw [hst1]; exact hon.Add_after st (c.makeKey K) v1
  have ha2 : (kv.run o1.store (o1.cfg.setOp K v2 none)).1 ≠ none := by
    simp only [CfgMetaKv.setOp, MetaKv.run, hmk]
    exact (hon.Add_fails_iff o1.store (c.makeKey K) v2).mpr hcur1
  obtain ⟨x2, hx2⟩ := Option.ne_none_iff_exists'.mp ha2
  have e2 : o2 = _ :=
    CfgMetaKv.Set_of_store_error kv o1.cfg o1.store K v2 o1.ret.1 none x2 hg2 hx2
  have hcfg2 : o2.cfg = o1.cfg := by rw [e2]
  have hst2 : o2.store = (kv.Add o1.store (c.makeKey K) v2).2 := by
    rw [e2]; simp [CfgMetaKv.setOp, MetaKv.run, hmk]
  -- the third call
  have hg3 : o2.cfg.cfgMem.GetRev K o1.ret.1 = Except.ok none := by rw [hcfg2]; exact hg2
  have hcur2 : cur o2.store (c.makeKey K) ≠ none := by
    rw [hst2]; exact hon.Add_after o1.store (c.makeKey K) v2
  have ha3 : (kv.run o2.store (o2.cfg.setOp K v3 none)).1 ≠ none := by
    rw [hcfg2]
    simp only [CfgMetaKv.setOp, MetaKv.run, hmk]
    exact (hon.Add_fails_iff o2.store (c.makeKey K) v3).mpr hcur2
  obtain ⟨x3, hx3⟩ := Option.ne_none_iff_exists'.mp ha3
  have e3 : o3 = _ :=
    CfgMetaKv.Set_of_store_error kv o2.cfg o2.store K v3 o1.ret.1 none x3 hg3 hx3
  refine ⟨by rw [hret1], by rw [hcas1]; exact hpos, ?_, ⟨x2, by rw [e2]⟩, ?_, hcfg2,
    ⟨x3, by rw [e3]⟩, ?_, ?_⟩
  · rw [e1]; simp [CfgMetaKv.setOp, CfgMetaKv.makeKey]
  · rw [e2]; simp [CfgMetaKv.setOp, CfgMetaKv.makeKey, hpath1]
  · rw [e3]; simp [CfgMetaKv.setOp, CfgMetaKv.makeKey, hpath1, hcfg2]
  · rw [e3]; exact hcfg2

/-- Witness of amended C1: the fresh adapter over the empty reference store. -/
theorem CfgMetaKv.Set_then_Set_under_first_cas_witness :
    honestKv.Honours Store.revOf ∧
    (NewCfgMetaKv : CfgMetaKv Nat).cfgMem.Entries keyK = none ∧
    Store.revOf Store.empty ((NewCfgMetaKv : CfgMetaKv Nat).makeKey keyK) = none ∧
    0 < (NewCfgMetaKv : CfgMetaKv Nat).cfgMem.CASNext ∧
    (CfgMetaKv.Set honestKv NewCfgMetaKv Store.empty keyK valA 0).ret.2 = none ∧
    0 < (CfgMetaKv.Set honestKv NewCfgMetaKv Store.empty keyK valA 0).ret.1 :=
  ⟨honestKv_honours, rfl, rfl, by decide,
    (CfgMetaKv.Set_then_Set_under_first_cas honestKv Store.revOf honestKv_honours
      NewCfgMetaKv Store.empty keyK valA valB valC rfl rfl (by decide)).1,
    (CfgMetaKv.Set_then_Set_under_first_cas honestKv Store.revOf honestKv_honours
      NewCfgMetaKv Store.empty keyK valA valB valC rfl rfl (by decide)).2.1⟩

/-- C7: for a key `K` held in the local cache with cas `e.CAS` and a recorded
external revision `r`, over a contract-honouring store that accepts the
conditional delete: `Del(K, e.CAS)` issues that one delete and returns nil;
afterwards `Get(K, 0)` fails `NotFound` and no external revision is recorded
for `K`; and a following `Set(K, v, 0)` issues an external create, not a
conditional write on the old revision, and succeeds. -/
theorem CfgMetaKv.Del_then_Set_creates {σ ρ ε : Type} (kv : MetaKv σ ρ ε)
    (cur : σ → GoString → Option ρ) (hon : kv.Honours cur)
    (c : CfgMetaKv ρ) (st : σ) (K v : GoString) (e : CfgMemEntry ρ) (r : ρ)
    (hE : c.cfgMem.Entries K = some e) (hr : e.rev = some r)
    (hdel : (kv.Delete st (c.makeKey K) (some r)).1 = none) :
    let o := CfgMetaKv.Del kv c st K e.CAS
    let o2 := CfgMetaKv.Set kv o.cfg o.store K v 0
    o.ret = none ∧ o.ops = [ExtOp.Delete (c.path ++ K) (some r)] ∧
    o.cfg.Get K 0 = Except.error CfgMemError.NotFound ∧
    o.cfg.cfgMem.GetRev K 0 = Except.ok none ∧
    o2.ops = [ExtOp.Add (c.path ++ K) v] ∧ o2.ret.2 = none ∧
    o2.cfg.Get K 0 = Except.ok (v, o2.ret.1) := by
  intro o o2
  have hg : c.cfgMem.GetRev K e.CAS = Except.ok (some r) := by
    rw [CfgMem.GetRev_own _ K e hE, hr]
  have e1 : o = _ := CfgMetaKv.delUnlocked_of_store_ok kv c st K e.CAS (some r) hg hdel
  have hpath : o.cfg.path = c.path := by rw [e1]
  have hent : o.cfg.cfgMem.Entries K = none := by rw [e1]; simp
  have hst : o.store = (kv.Delete st (c.makeKey K) (some r)).2 := by rw [e1]
  have hmk : ∀ k, o.cfg.makeKey k = c.makeKey k := by
    intro k; simp [CfgMetaKv.makeKey, hpath]
  have hg2 : o.cfg.cfgMem.GetRev K 0 = Except.ok none := by
    rw [CfgMem.GetRev_zero, hent]; rfl
  have hcur : cur o.store (c.makeKey K) = none := by
    rw [hst]; exact hon.Delete_after st (c.makeKey K) (some r) hdel
  have ha : (kv.run o.store (o.cfg.setOp K v none)).1 = none := by
    simp only [CfgMetaKv.setOp, MetaKv.run, hmk]
    have := (hon.Add_fails_iff o.store (c.makeKey K) v).not
    simp only [ne_eq, not_not] at this
    exact this.mpr hcur
  have e2 : o2 = _ := CfgMetaKv.Set_of_store_ok kv o.cfg o.store K v 0 none hg2 ha
  refine ⟨by rw [e1], ?_, ?_, hg2, ?_, by rw [e2], ?_⟩
  · rw [e1]; simp [CfgMetaKv.makeKey]
  · simp [CfgMetaKv.Get, CfgMem.Get, hent]
  · rw [e2]; simp [CfgMetaKv.setOp, CfgMetaKv.makeKey, hpath]
  · rw [e2]; simp [CfgMetaKv.Get, CfgMem.Get, admits_zero]

/-- Witness of C7: the cache holding `"k"` at revision 1 over the reference
store holding it at revision 1. -/
theorem CfgMetaKv.Del_then_Set_creates_witness :
    honestKv.Honours Store.revOf ∧
    cachedK.cfgMem.Entries keyK = some { CAS := 1, Val := valA, rev := some 1 } ∧
    (honestKv.Delete storeK1 (cachedK.makeKey keyK) (some 1)).1 = none ∧
    (CfgMetaKv.Del honestKv cachedK storeK1 keyK 1).ret = none ∧
    (CfgMetaKv.Set honestKv (CfgMetaKv.Del honestKv cachedK storeK1 keyK 1).cfg
      (CfgMetaKv.Del honestKv cachedK storeK1 keyK 1).store keyK valB 0).ops =
      [ExtOp.Add (BASE_CFG_PATH ++ keyK) valB] :=
  ⟨honestKv_honours, rfl, by decide,
    (CfgMetaKv.Del_then_Set_creates honestKv Store.revOf honestKv_honours cachedK storeK1
      keyK valB { CAS := 1, Val := valA, rev := some 1 } 1 rfl rfl (by decide)).1,
    (CfgMetaKv.Del_then_Set_creates honestKv Store.revOf honestKv_honours cachedK storeK1
      keyK valB { CAS := 1, Val := valA, rev := some 1 } 1 rfl rfl (by decide)).2.2.2.2.1⟩

/-- C6: for every adapter, store, key `K`, present value `v` and revision `r`:
`metaKVCallback(makeKey(K), v, r)` returns (no panic) with a nil error and
without touching the store; afterwards `Get(K, 0)` returns `v`, the external
revision recorded for `K` under its new cas is `r`; the path `path + K` maps
back to exactly `K`; and the next `Set(K, v2, 0)` issues one `metakv.Set`
gated on `r`. -/
theorem CfgMetaKv.metaKVCallback_value {σ ρ ε : Type} (kv : MetaKv σ ρ ε)
    (c : CfgMetaKv ρ) (st : σ) (K v : GoString) (r : ρ) :
    c.getMetaKey (c.makeKey K) = some K ∧
    ∃ o, c.metaKVCallback kv st (c.makeKey K) (some v) (some r) = some o ∧
      o.ret = none ∧ o.ops = [] ∧ o.store = st ∧
      (∃ cas, o.cfg.Get K 0 = Except.ok (v, cas) ∧
        o.cfg.cfgMem.GetRev K cas = Except.ok (some r)) ∧
      ∀ v2, (CfgMetaKv.Set kv o.cfg o.store K v2 0).ops =
        [ExtOp.Set (c.path ++ K) v2 (some r)] := by
  have hkey : c.getMetaKey (c.makeKey K) = some K := by
    simp [CfgMetaKv.getMetaKey, CfgMetaKv.makeKey]
  refine ⟨hkey, ?_⟩
  have hcb : c.metaKVCallback kv st (c.makeKey K) (some v) (some r) =
      some ⟨none, { c with cfgMem :=
        { CASNext := (c.cfgMem.CASNext + 1) % 2 ^ 64,
          Entries := fun k =>
            if k = K then some { CAS := c.cfgMem.CASNext, Val := v, rev := some r }
            else if k = K then some { CAS := c.cfgMem.CASNext, Val := v, rev := none }
            else c.cfgMem.Entries k } }, st, []⟩ := by
    unfold CfgMetaKv.metaKVCallback
    rw [hkey]
    simp [CfgMem.Set_force, CfgMem.SetRev]
  refine ⟨_, hcb, rfl, rfl, rfl, ⟨c.cfgMem.CASNext, ?_, ?_⟩, ?_⟩
  · simp [CfgMetaKv.Get, CfgMem.Get, admits_zero]
  · have := CfgMem.GetRev_own
      ({ CASNext := (c.cfgMem.CASNext + 1) % 2 ^ 64,
         Entries := fun k =>
           if k = K then some { CAS := c.cfgMem.CASNext, Val := v, rev := some r }
           else if k = K then some { CAS := c.cfgMem.CASNext, Val := v, rev := none }
           else c.cfgMem.Entries k } : CfgMem ρ) K
      { CAS := c.cfgMem.CASNext, Val := v, rev := some r } (by simp)
    simpa using this
  · intro v2
    have h3 := (CfgMetaKv.Set_ops_of_check_ok kv
      ({ c with cfgMem :=
        { CASNext := (c.cfgMem.CASNext + 1) % 2 ^ 64,
          Entries := fun k =>
            if k = K then some { CAS := c.cfgMem.CASNext, Val := v, rev := some r }
            else if k = K then some { CAS := c.cfgMem.CASNext, Val := v, rev := none }
            else c.cfgMem.Entries k } } : CfgMetaKv ρ) st K v2 0 (some r)
      (by simp [CfgMem.GetRev_zero]))
    simpa [CfgMetaKv.setOp, CfgMetaKv.makeKey] using h3

/-- C8, as stated, fails: the cache holds `"k"` under cas 1 with recorded
revision 1 while the store has moved on to revision 5; `Set("k", "c", 1)` and
`Del("k", 1)` pass the local check, the store rejects the conditional write
and the conditional delete for the revision mismatch, and the error returned
is the store's own error value, not the CAS-mismatch error of the local
check. -/
theorem CfgMetaKv.Set_Del_rev_mismatch_counterexample :
    cachedK.cfgMem.GetRev keyK 1 = Except.ok (some 1) ∧
    (CfgMetaKv.Set honestKv cachedK storeK5 keyK valC 1).ret =
      (1, some (GoErr.metakv StoreError.RevMismatch)) ∧
    (CfgMetaKv.Set honestKv cachedK storeK5 keyK valC 1).ret.2 ≠
      some (GoErr.cfg CfgMemError.CfgCASError) ∧
    (CfgMetaKv.Del honestKv cachedK storeK5 keyK 1).ret =
      some (GoErr.metakv StoreError.RevMismatch) ∧
    (CfgMetaKv.Del honestKv cachedK storeK5 keyK 1).ret ≠
      some (GoErr.cfg CfgMemError.CfgCASError) := by
  refine ⟨rfl, by decide, by decide, by decide, by decide⟩

/-- C8, amended: when the local check passes with recorded revision `r` and
the store rejects the conditional write with error `e`, `Set` returns the
caller's cas together with the store's error `e` itself (not converted to the
CAS-mismatch error), having issued the conditional write exactly once and
leaving the adapter unchanged; likewise when the local check of `Del` passes
with `rev` and the store rejects the conditional delete with `e`, `Del`
returns `e` itself, having issued the delete exactly once, adapter
unchanged. -/
theorem CfgMetaKv.Set_Del_store_rejection {σ ρ ε : Type} (kv : MetaKv σ ρ ε)
    (c : CfgMetaKv ρ) (st : σ) (key val : GoString) (cas : Nat) :
    (∀ (r : ρ) (e : ε), c.cfgMem.GetRev key cas = Except.ok (some r) →
      (kv.Set st (c.path ++ key) val (some r)).1 = some e →
      (CfgMetaKv.Set kv c st key val cas).ret = (cas, some (GoErr.metakv e)) ∧
      (CfgMetaKv.Set kv c st key val cas).ops = [ExtOp.Set (c.path ++ key) val (some r)] ∧
      (CfgMetaKv.Set kv c st key val cas).cfg = c) ∧
    (∀ (rev : Option ρ) (e : ε), c.cfgMem.GetRev key cas = Except.ok rev →
      (kv.Delete st (c.path ++ key) rev).1 = some e →
      (CfgMetaKv.Del kv c st key cas).ret = some (GoErr.metakv e) ∧
      (CfgMetaKv.Del kv c st key cas).ops = [ExtOp.Delete (c.path ++ key) rev] ∧
      (CfgMetaKv.Del kv c st key cas).cfg = c) := by
  constructor
  · intro r e hcheck hset
    rw [CfgMetaKv.Set_of_store_error kv c st key val cas (some r) e hcheck hset]
    simp [CfgMetaKv.setOp, CfgMetaKv.makeKey]
  · intro rev e hcheck hdel
    unfold CfgMetaKv.Del
    rw [CfgMetaKv.delUnlocked_of_store_error kv c st key cas rev e hcheck hdel]
    simp [CfgMetaKv.makeKey]

/-- Witness of amended C8: the cache at revision 1 against the store at
revision 5. -/
theorem CfgMetaKv.Set_Del_store_rejection_witness :
    cachedK.cfgMem.GetRev keyK 1 = Except.ok (some 1) ∧
    (honestKv.Set storeK5 (cachedK.path ++ keyK) valC (some 1)).1 =
      some StoreError.RevMismatch ∧
    (honestKv.Delete storeK5 (cachedK.path ++ keyK) (some 1)).1 =
      some StoreError.RevMismatch ∧
    (CfgMetaKv.Set honestKv cachedK storeK5 keyK valC 1).cfg = cachedK ∧
    (CfgMetaKv.Del honestKv cachedK storeK5 keyK 1).cfg = cachedK :=
  ⟨rfl, by decide, by decide,
    ((CfgMetaKv.Set_Del_store_rejection honestKv cachedK storeK5 keyK valC 1).1 1
      StoreError.RevMismatch rfl (by decide)).2.2,
    ((CfgMetaKv.Set_Del_store_rejection honestKv cachedK storeK5 keyK valC 1).2 (some 1)
      StoreError.RevMismatch rfl (by decide)).2.2⟩

/-- C9, as stated, fails: on a fresh adapter over the empty store,
`Set("k", "a", CAS_FORCE)` is accepted: it returns cas 1 with a nil error,
issues a create, and the cache then holds `"a"` for `"k"`; and
`Del("k", CAS_FORCE)` on that fresh adapter is accepted too, issuing an
external delete. -/
theorem CfgMetaKv.Set_Del_force_counterexample :
    (CfgMetaKv.Set honestKv NewCfgMetaKv Store.empty keyK valA CAS_FORCE).ret = (1, none) ∧
    (CfgMetaKv.Set honestKv NewCfgMetaKv Store.empty keyK valA CAS_FORCE).ops =
      [ExtOp.Add (BASE_CFG_PATH ++ keyK) valA] ∧
    (CfgMetaKv.Set honestKv NewCfgMetaKv Store.empty keyK valA CAS_FORCE).cfg.Get keyK 0 =
      Except.ok (valA, 1) ∧
    (NewCfgMetaKv : CfgMetaKv Nat).Get keyK 0 = Except.error CfgMemError.NotFound ∧
    (CfgMetaKv.Del honestKv NewCfgMetaKv Store.empty keyK CAS_FORCE).ret = none ∧
    (CfgMetaKv.Del honestKv NewCfgMetaKv Store.empty keyK CAS_FORCE).ops =
      [ExtOp.Delete (BASE_CFG_PATH ++ keyK) none] := by
  refine ⟨by decide, by decide, rfl, rfl, by decide, by decide⟩

/-- C9, amended: `CfgMetaKv.Set` and `CfgMetaKv.Del` have no guard of their
own against `CAS_FORCE`; they hand it to the local check `cfgMem.GetRev`,
which passes at least for every key absent from the local cache.  Whenever
that check passes, `Set(key, val, CAS_FORCE)` issues exactly one create or
conditional write and, if the store accepts it, returns a nil error and the
cache holds `val` for `key`; and `Del(key, CAS_FORCE)` issues exactly one
external delete and, if the store accepts it, returns nil and `key` is absent
from the cache. -/
theorem CfgMetaKv.Set_Del_force_accepted {σ ρ ε : Type} (kv : MetaKv σ ρ ε)
    (c : CfgMetaKv ρ) (st : σ) (key val : GoString) :
    (c.cfgMem.Entries key = none → c.cfgMem.GetRev key CAS_FORCE = Except.ok none) ∧
    (∀ rev : Option ρ, c.cfgMem.GetRev key CAS_FORCE = Except.ok rev →
      (CfgMetaKv.Set kv c st key val CAS_FORCE).ops = [c.setOp key val rev] ∧
      ((kv.run st (c.setOp key val rev)).1 = none →
        (CfgMetaKv.Set kv c st key val CAS_FORCE).ret.2 = none ∧
        (CfgMetaKv.Set kv c st key val CAS_FORCE).cfg.Get key 0 =
          Except.ok (val, (CfgMetaKv.Set kv c st key val CAS_FORCE).ret.1)) ∧
      (CfgMetaKv.Del kv c st key CAS_FORCE).ops = [ExtOp.Delete (c.path ++ key) rev] ∧
      ((kv.Delete st (c.path ++ key) rev).1 = none →
        (CfgMetaKv.Del kv c st key CAS_FORCE).ret = none ∧
        (CfgMetaKv.Del kv c st key CAS_FORCE).cfg.Get key 0 =
          Except.error CfgMemError.NotFound)) := by
  refine ⟨?_, ?_⟩
  · intro h
    rw [CfgMem.GetRev_force, h]; rfl
  · intro rev hcheck
    refine ⟨CfgMetaKv.Set_ops_of_check_ok kv c st key val CAS_FORCE rev hcheck, ?_, ?_, ?_⟩
    · intro hs
      rw [CfgMetaKv.Set_of_store_ok kv c st key val CAS_FORCE rev hcheck hs]
      simp [CfgMetaKv.Get, CfgMem.Get, admits_zero]
    · have := CfgMetaKv.delUnlocked_ops kv c st key CAS_FORCE rev hcheck
      simpa [CfgMetaKv.Del, CfgMetaKv.makeKey] using this
    · intro hs
      unfold CfgMetaKv.Del
      rw [CfgMetaKv.delUnlocked_of_store_ok kv c st key CAS_FORCE rev hcheck hs]
      simp [CfgMetaKv.Get, CfgMem.Get]

/-- Witness of amended C9: `"k"` is absent from a fresh adapter, the check
passes for `CAS_FORCE`, and the empty store accepts the create. -/
theorem CfgMetaKv.Set_Del_force_accepted_witness :
    (NewCfgMetaKv : CfgMetaKv Nat).cfgMem.Entries keyK = none ∧
    (NewCfgMetaKv : CfgMetaKv Nat).cfgMem.GetRev keyK CAS_FORCE = Except.ok none ∧
    (honestKv.run Store.empty ((NewCfgMetaKv : CfgMetaKv Nat).setOp keyK valA none)).1 = none ∧
    (CfgMetaKv.Set honestKv NewCfgMetaKv Store.empty keyK valA CAS_FORCE).ret.2 = none :=
  ⟨rfl,
    (CfgMetaKv.Set_Del_force_accepted honestKv NewCfgMetaKv Store.empty keyK valA).1 rfl,
    by decide,
    (((CfgMetaKv.Set_Del_force_accepted honestKv NewCfgMetaKv Store.empty keyK valA).2 none
      ((CfgMetaKv.Set_Del_force_accepted honestKv NewCfgMetaKv Store.empty keyK valA).1 rfl)).2.1
      (by decide)).1⟩

/-- C5 at a failing input: the cache holds `"k"` with recorded revision 1 and
the key is already gone from the store.  The delete notification
`metaKVCallback("/cbgt/cfg/k", nil, 2)` issues an external delete, the store
rejects it, and the callback returns that error with `"k"` still in the local
cache. -/
theorem CfgMetaKv.metaKVCallback_delete_depends_on_store :
    (cachedK.metaKVCallback honestKv Store.empty (cachedK.makeKey keyK) none (some 2)).map
      (fun o => (o.ret, o.ops, o.cfg.Get keyK 0)) =
    some (some (GoErr.metakv StoreError.RevMismatch),
      [ExtOp.Delete (BASE_CFG_PATH ++ keyK) (some 1)],
      Except.ok (valA, 1)) := by
  rfl

/-- C10 at a failing input: with a stats interval of 5 s and a diag interval
of 10 s, `runNode` hands 5 s to the diag ticker, not the 10 s of
`options.DiagSampleInterval`. -/
theorem MonitorNodes.runNode_diag_follows_stats :
    sampleOptions.DiagSampleInterval = 10 * Second ∧
    (MonitorNodes.runNode 1 60 sampleOptions).2 = 5 * Second ∧
    (MonitorNodes.runNode 1 60 sampleOptions).2 ≠ sampleOptions.DiagSampleInterval ∧
    (MonitorNodes.runNode 1 60 sampleOptions).1 = sampleOptions.StatsSampleInterval := by
  decide

end cbgt
